import Mathlib

/-!
Verification development for the `simple-ids` container-management tool.

The Rust source is shallowly embedded: effectful functions (which shell out
to an external container engine, the network, or the filesystem) are
modelled as pure Lean functions over an explicit environment record that
supplies the outcome of every external call, and they return the value the
Rust function returns together with a trace of the external calls issued.
Machine-level details that no claim depends on (the exact bytes of JSON,
the SHA-256 compression function, regex capture internals) enter the model
as environment inputs or function parameters, never as hard-coded results.
-/

namespace SimpleIds

/-! ## Engine abstraction (src/container.rs) -/

/-- The two container engines (`enum ContainerManager` in container.rs). -/
inductive ContainerManager where
  | docker
  | podman
deriving DecidableEq, Repr

/-- Executable name of the engine (`ContainerManager::bin`). -/
def ContainerManager.bin : ContainerManager → String
  | .docker => "docker"
  | .podman => "podman"

/-- Mirrors `ContainerManager::is_podman`. -/
def ContainerManager.isPodman : ContainerManager → Bool
  | .podman => true
  | .docker => false

/-- Mirrors `ContainerManager::is_docker`. -/
def ContainerManager.isDocker : ContainerManager → Bool
  | .docker => true
  | .podman => false

/-- Argument list built by `ContainerManager::quiet_rm`: `rm`, a `--force`
flag only for Podman, then the container name. -/
def quietRmArgs (m : ContainerManager) (name : String) : List String :=
  (["rm"] ++ (if m.isPodman then ["--force"] else [])) ++ [name]

/-- Result of `quiet_rm`.  The Rust body runs the removal command and
discards its result (`let _ = self.command().args(&args).output();`), so the
function returns unit whatever the underlying command does.  The
`underlying` argument stands for the outcome of that external command. -/
def quietRm (_m : ContainerManager) (_name : String)
    (_underlying : Except String Unit) : Except String Unit :=
  Except.ok ()

/-- Argument list built by `ContainerManager::stop`: Docker accepts a
`--signal` option (defaulting to SIGTERM), Podman does not. -/
def stopArgs (m : ContainerManager) (name : String) (signal : Option String) :
    List String :=
  (["stop"] ++
    (if m.isDocker then ["--signal", signal.getD "SIGTERM"] else [])) ++ [name]

/-! ## Inspect / state / is_running (src/container.rs) -/

/-- Mirrors `struct InspectState` (deserialized `State` object). -/
structure InspectState where
  status : String
  running : Bool
  error : String
  exitCode : Int
deriving DecidableEq, Repr

/-- Mirrors `struct InspectEntry`.  `state` is present only when the
inspected name is a container; `repoTags` only when it is an image. -/
structure InspectEntry where
  id : String
  state : Option InspectState
  repoTags : Option (List String)
deriving DecidableEq, Repr

/-- Outcome of the external `inspect` command as consumed by
`command_json`: the process can fail to launch, exit non-zero (with some
stderr text), produce output that does not deserialize, or produce a list
of entries. -/
inductive InspectOutcome where
  | launchFail
  | exitFail (stderr : String)
  | parseFail
  | parsed (entries : List InspectEntry)
deriving DecidableEq, Repr

/-- Mirrors `command_json::<Vec<InspectEntry>>`: a launch failure or parse
failure is an error; a non-zero exit reports the stderr text (or a fixed
message when stderr is empty); success yields the deserialized entries. -/
def commandJson : InspectOutcome → Except String (List InspectEntry)
  | .launchFail => Except.error "failed to launch inspect command"
  | .exitFail stderr =>
      if stderr = "" then Except.error "Command failed with no stderr output"
      else Except.error stderr
  | .parseFail => Except.error "failed to deserialize inspect output"
  | .parsed entries => Except.ok entries

/-- Mirrors `ContainerManager::inspect_first`: an empty entry array is an
error; otherwise the first entry (`swap_remove(0)`) is returned. -/
def inspectFirst (o : InspectOutcome) : Except String InspectEntry :=
  match commandJson o with
  | .error e => Except.error e
  | .ok [] => Except.error "returned unexpected empty inspect array"
  | .ok (e :: _) => Except.ok e

/-- Mirrors `ContainerManager::state`: the entry's `State` object, or a
"not a container" error when the entry has none (the name was an image). -/
def state (o : InspectOutcome) : Except String InspectState :=
  match inspectFirst o with
  | .error e => Except.error e
  | .ok entry =>
      match entry.state with
      | some s => Except.ok s
      | none => Except.error "not a container"

/-- Mirrors `ContainerManager::is_running`: the `Running` flag when `state`
succeeds, `false` on any failure. -/
def isRunning (o : InspectOutcome) : Bool :=
  match state o with
  | .ok s => s.running
  | .error _ => false

/-! ## Engine probing (src/container.rs, `find_manager`) -/

/-- Split a character list into the dot-separated groups. -/
def splitDots : List Char → List (List Char)
  | [] => [[]]
  | c :: rest =>
      let r := splitDots rest
      if c = '.' then [] :: r
      else
        match r with
        | [] => [[c]]
        | g :: gs => (c :: g) :: gs

/-- Numeric value of a digit sequence. -/
def natFromDigits (cs : List Char) : Nat :=
  cs.foldl (fun acc c => acc * 10 + (c.toNat - 48)) 0

/-- Parse one numeric semver component: non-empty, digits only, no leading
zero (models the numeric identifiers of the `semver` crate used by
`find_manager`). -/
def parseNatComponent (cs : List Char) : Option Nat :=
  if cs.isEmpty then none
  else if !cs.all Char.isDigit then none
  else if 1 < cs.length && cs.head? == some '0' then none
  else some (natFromDigits cs)

/-- Parse a `MAJOR.MINOR.PATCH` version string into its three numeric
components (models `semver::Version::parse` on plain numeric versions;
pre-release and build-metadata suffixes are out of the modelled domain). -/
def parseSemver (s : String) : Option (Nat × Nat × Nat) :=
  match splitDots s.data with
  | [a, b, c] =>
      match parseNatComponent a, parseNatComponent b, parseNatComponent c with
      | some x, some y, some z => some (x, y, z)
      | _, _, _ => none
  | _ => none

/-- The external facts `find_manager` consults: whether each engine binary
exists and what its `version` query returns (`none` = the version query
failed). -/
structure ProbeEnv where
  dockerExists : Bool
  dockerVersion : Option String
  podmanExists : Bool
  podmanVersion : Option String

/-- The diagnostic `find_manager` logs when the Podman version is below the
enforced minimum. -/
def minVersionDiagnostic : String := "Podman version must be at least 4.7.0"

/-- Mirrors `find_manager`: try Docker first unless `podman` is set, then
Podman; Podman is additionally rejected (with a logged diagnostic) when its
parsed version has major < 4, or major = 4 and minor < 6, or fails to
parse.  Returns the selected engine and the list of `error!` logs. -/
def findManager (podman : Bool) (env : ProbeEnv) :
    Option ContainerManager × List String :=
  match
    (if !podman then
      if env.dockerExists then
        match env.dockerVersion with
        | some _ => some ContainerManager.docker
        | none => none
      else none
    else none)
  with
  | some m => (some m, [])
  | none =>
    if env.podmanExists then
      match env.podmanVersion with
      | some v =>
          match parseSemver v with
          | some (major, minor, _patch) =>
              if major < 4 || (major == 4 && minor < 6) then
                (none, [minVersionDiagnostic])
              else
                (some ContainerManager.podman, [])
          | none => (none, ["Failed to parse Podman version"])
      | none => (none, [])
    else (none, [])

/-! ## Run-command builder (src/container.rs, `RunCommandBuilder`) -/

/-- Mirrors `struct RunCommandBuilder`. -/
structure RunCommandBuilder where
  manager : ContainerManager
  image : String
  rm : Bool
  it : Bool
  volumes : List String
  name : Option String
  args : List String
deriving DecidableEq, Repr

/-- Mirrors `RunCommandBuilder::new`. -/
def RunCommandBuilder.new (manager : ContainerManager) (image : String) :
    RunCommandBuilder :=
  ⟨manager, image, false, false, [], none, []⟩

/-- One option-setting call on the builder (`rm`, `it`, `_name`, `_arg`,
`args`, `volumes`). -/
inductive BuilderOp where
  | rm
  | it
  | name (n : String)
  | arg (a : String)
  | args (as : List String)
  | volumes (vs : List String)
deriving DecidableEq, Repr

/-- Apply one option-setting call, exactly as the corresponding `&mut self`
method mutates the builder. -/
def applyOp (b : RunCommandBuilder) : BuilderOp → RunCommandBuilder
  | .rm => { b with rm := true }
  | .it => { b with it := true }
  | .name n => { b with name := some n }
  | .arg a => { b with args := b.args ++ [a] }
  | .args as => { b with args := b.args ++ as }
  | .volumes vs => { b with volumes := b.volumes ++ vs }

/-- Apply a sequence of option-setting calls in order. -/
def applyOps (b : RunCommandBuilder) (ops : List BuilderOp) :
    RunCommandBuilder :=
  ops.foldl applyOp b

/-- Mirrors `RunCommandBuilder::build`: the engine binary plus the argument
list in the fixed order `run`, `-it`, `--rm`, `--name=...`, the volumes in
append order, the image, then the trailing arguments. -/
def RunCommandBuilder.build (b : RunCommandBuilder) : String × List String :=
  (b.manager.bin,
    ["run"] ++
    (if b.it then ["-it"] else []) ++
    (if b.rm then ["--rm"] else []) ++
    (match b.name with
     | some n => ["--name=" ++ n]
     | none => []) ++
    b.volumes.map (fun v => "--volume=" ++ v) ++
    [b.image] ++
    b.args)

/-- Whether any call in the sequence sets the remove-on-exit flag. -/
def opsRm : List BuilderOp → Bool
  | [] => false
  | op :: rest =>
      (match op with | BuilderOp.rm => true | _ => false) || opsRm rest

/-- Whether any call in the sequence sets the interactive flag. -/
def opsIt : List BuilderOp → Bool
  | [] => false
  | op :: rest =>
      (match op with | BuilderOp.it => true | _ => false) || opsIt rest

/-- The name set by the last name-setting call of the sequence, if any. -/
def opsName : List BuilderOp → Option String
  | [] => none
  | op :: rest =>
      match opsName rest with
      | some m => some m
      | none => match op with | BuilderOp.name n => some n | _ => none

/-- All volumes appended by the sequence, in append order. -/
def opsVolumes : List BuilderOp → List String
  | [] => []
  | op :: rest =>
      (match op with | BuilderOp.volumes vs => vs | _ => []) ++ opsVolumes rest

/-- All trailing arguments appended by the sequence, in append order. -/
def opsArgs : List BuilderOp → List String
  | [] => []
  | op :: rest =>
      (match op with
       | BuilderOp.arg a => [a]
       | BuilderOp.args as => as
       | _ => []) ++ opsArgs rest

/-! ## Lifecycle controller (src/main.rs) -/

/-- The fixed container name of the inspection-engine service
(`SURICATA_CONTAINER_NAME`). -/
def suricataName : String := "simple-ids-suricata"

/-- The fixed container name of the viewer service
(`EVEBOX_CONTAINER_NAME`). -/
def eveboxName : String := "simple-ids-evebox"

/-- One external engine call issued by the lifecycle code, identified by the
subcommand and the container it concerns. -/
inductive EngineCall where
  | existsCheck (name : String)
  | stopCall (name : String) (signal : Option String)
  | quietRmCall (name : String)
  | runCall (name : String)
  | execCall (name : String)
  | runningCheck (name : String) (answer : Bool)
deriving DecidableEq, Repr

/-- External outcomes consulted by the lifecycle functions: which containers
exist, which engine calls succeed, and what the Suricata `--dump-config`
run prints (`none` = that run failed). -/
structure LifecycleEnv where
  containerExists : String → Bool
  stopOk : String → Bool
  runOk : String → Bool
  execOk : Bool
  dumpConfig : Option (List String)
  interfaceSet : Bool

/-- Mirrors `stop` in main.rs: for Suricata then EveBox, check
`container_exists`; when it exists, issue `stop` (EveBox with SIGINT) and
then `quiet_rm` unconditionally; a stop failure flips the returned flag but
does not skip removal.  Returns the success flag and the trace of engine
calls. -/
def stopServices (env : LifecycleEnv) : Bool × List EngineCall :=
  let ok1 :=
    if env.containerExists suricataName then env.stopOk suricataName else true
  let tr1 :=
    if env.containerExists suricataName then
      [EngineCall.existsCheck suricataName,
       EngineCall.stopCall suricataName none,
       EngineCall.quietRmCall suricataName]
    else [EngineCall.existsCheck suricataName]
  let ok2 :=
    if env.containerExists eveboxName then env.stopOk eveboxName else true
  let tr2 :=
    if env.containerExists eveboxName then
      [EngineCall.existsCheck eveboxName,
       EngineCall.stopCall eveboxName (some "SIGINT"),
       EngineCall.quietRmCall eveboxName]
    else [EngineCall.existsCheck eveboxName]
  (ok1 && ok2, tr1 ++ tr2)

/-- Mirrors `suricata_dump_config`: `quiet_rm` the Suricata container, build
the run command (which fails when no network interface is configured), run
it with `--dump-config`, and return the printed lines. -/
def suricataDumpConfig (env : LifecycleEnv) :
    Except String (List String) × List EngineCall :=
  if !env.interfaceSet then
    (Except.error "no network interface set", [EngineCall.quietRmCall suricataName])
  else
    match env.dumpConfig with
    | none =>
        (Except.error "Failed to run --dump-config for Suricata",
          [EngineCall.quietRmCall suricataName, EngineCall.runCall suricataName])
    | some lines =>
        (Except.ok lines,
          [EngineCall.quietRmCall suricataName, EngineCall.runCall suricataName])

/-- Mirrors `start_suricata_detached`: dump the config (failure aborts),
derive extra `--set` arguments from it, `quiet_rm` the stale container, run
detached (failure aborts), then immediately launch the log-rotation helper
via `exec`; a helper failure is logged and the function still returns
success.  (The JA4 `--set` argument derivation by regex does not affect
which engine calls are issued and is not recorded in the trace.) -/
def startSuricataDetached (env : LifecycleEnv) :
    Except String Unit × List EngineCall :=
  let d := suricataDumpConfig env
  match d.1 with
  | .error e => (Except.error e, d.2)
  | .ok _lines =>
      let tr1 := d.2 ++ [EngineCall.quietRmCall suricataName,
                         EngineCall.runCall suricataName]
      if !env.runOk suricataName then
        (Except.error "suricata run command failed", tr1)
      else
        (Except.ok (), tr1 ++ [EngineCall.execCall suricataName])

/-- Mirrors `actions::start_evebox` (reached via `start_evebox_detached`):
`quiet_rm` the stale container then run detached; a run failure is an
error. -/
def startEvebox (env : LifecycleEnv) : Except String Unit × List EngineCall :=
  let tr := [EngineCall.quietRmCall eveboxName, EngineCall.runCall eveboxName]
  if !env.runOk eveboxName then
    (Except.error "evebox run command failed", tr)
  else (Except.ok (), tr)

/-- Mirrors `start` in main.rs: start Suricata detached, then start EveBox
detached regardless of the first outcome; returns true only when both
succeeded. -/
def startServices (env : LifecycleEnv) : Bool × List EngineCall :=
  let s := startSuricataDetached env
  let e := startEvebox env
  ((match s.1 with | .ok _ => true | .error _ => false) &&
   (match e.1 with | .ok _ => true | .error _ => false),
   s.2 ++ e.2)

/-! ## Trace-order predicates -/

/-- True when no element of the list satisfies `p`. -/
def noneSat (p : EngineCall → Bool) (l : List EngineCall) : Bool :=
  l.all (fun c => !p c)

/-- True when every `p`-call in the trace occurs strictly before every
`q`-call: no `p`-call appears after (or at) any `q`-call. -/
def precedesAll (p q : EngineCall → Bool) : List EngineCall → Bool
  | [] => true
  | c :: rest => (!q c || noneSat p rest) && precedesAll p q rest

/-- True when every `q`-call in the trace is strictly preceded by some
`p`-call. -/
def eachPrecededBy (q p : EngineCall → Bool) (l : List EngineCall) : Bool :=
  (l.foldl
    (fun acc c =>
      match acc with
      | (ok, seen) => (ok && (!q c || seen), seen || p c))
    (true, false)).1

/-- Recognizer for a `run` call of the given container. -/
def isRunOf (name : String) (c : EngineCall) : Bool :=
  match c with
  | .runCall n => n == name
  | _ => false

/-- Recognizer for a `stop` call of the given container. -/
def isStopOf (name : String) (c : EngineCall) : Bool :=
  match c with
  | .stopCall n _ => n == name
  | _ => false

/-- Recognizer for an `exec` (log-rotation) call of the given container. -/
def isExecOf (name : String) (c : EngineCall) : Bool :=
  match c with
  | .execCall n => n == name
  | _ => false

/-- Recognizer for an `is_running` observation of the given container that
answered true. -/
def isRunningTrueOf (name : String) (c : EngineCall) : Bool :=
  match c with
  | .runningCheck n answer => n == name && answer
  | _ => false

/-! ## Foreground supervisor shutdown (src/main.rs, `start_foreground`)

The shutdown coordination is genuinely concurrent: the Ctrl-C handler and
the four stream-reader threads all hold a sender for one mpsc channel,
while the single main control flow performs exactly one blocking `recv`
and then runs the straight-line shutdown sequence (stop Suricata with the
default signal, stop EveBox with SIGINT, wait for both children).  We model
it as a small transition system over interleavings: any number of handler
invocations and reader completions may fire in any order, each enqueuing
one message; the main flow may consume one message once. -/

/-- State of the foreground-supervisor shutdown protocol. -/
structure SupState where
  interruptsPending : Nat
  readersPending : Nat
  channel : Nat
  mainDone : Bool
  trace : List EngineCall
deriving DecidableEq, Repr

/-- Initial supervisor state: `n` potential interrupt-handler invocations,
`r` reader threads still running, empty channel, shutdown not yet run. -/
def supInit (n r : Nat) : SupState :=
  ⟨n, r, 0, false, []⟩

/-- One interleaving step of the foreground supervisor: an interrupt
handler fires (sends one channel message), a reader thread reaches
end-of-stream (sends one channel message), or the main flow receives one
message and runs the shutdown sequence, which it can do only once because
the code after `rx.recv()` is straight-line. -/
inductive SupStep : SupState → SupState → Prop where
  | interrupt (s : SupState) (h : 0 < s.interruptsPending) :
      SupStep s { s with interruptsPending := s.interruptsPending - 1,
                         channel := s.channel + 1 }
  | readerEof (s : SupState) (h : 0 < s.readersPending) :
      SupStep s { s with readersPending := s.readersPending - 1,
                         channel := s.channel + 1 }
  | mainRecv (s : SupState) (hm : s.mainDone = false) (hc : 0 < s.channel) :
      SupStep s { s with channel := s.channel - 1,
                         mainDone := true,
                         trace := s.trace ++
                           [EngineCall.stopCall suricataName none,
                            EngineCall.stopCall eveboxName (some "SIGINT")] }

/-- Reachability in the supervisor transition system. -/
inductive SupReaches : SupState → SupState → Prop where
  | refl (s : SupState) : SupReaches s s
  | step {s t u : SupState} (h : SupStep s t) (h2 : SupReaches t u) :
      SupReaches s u

/-! ## Self-update (src/selfupdate.rs) -/

/-- ASCII lowercasing of one character (checksum bodies are ASCII hex, so
this models Rust's `to_lowercase` on the relevant inputs). -/
def asciiToLower (c : Char) : Char :=
  if 'A' ≤ c && c ≤ 'Z' then Char.ofNat (c.toNat + 32) else c

/-- Mirrors `response.text()?.trim().to_lowercase()`: strip leading and
trailing whitespace, then lowercase. -/
def normalizeChecksum (s : String) : String :=
  String.mk
    ((((s.data.dropWhile Char.isWhitespace).reverse.dropWhile
        Char.isWhitespace).reverse).map asciiToLower)

/-- Filesystem / network effects performed by `self_update`, in order. -/
inductive UpdateEffect where
  | fetchChecksum
  | download
  | removeFile
  | createFile
deriving DecidableEq, Repr

/-- How `self_update` terminates: a normal `Ok(())` return, an error
returned to the caller, or `process::exit(0)` after a successful
replacement. -/
inductive UpdateOutcome where
  | ok
  | err (msg : String)
  | exitSuccess
deriving DecidableEq, Repr

/-- External facts consumed by `self_update`: whether it runs under Cargo,
whether the current executable path is known and its file readable, the
bytes of the current executable file, the result of the checksum fetch
(HTTP status, then body text), the downloaded bytes (`none` = download
failed), and whether the remove/create filesystem steps succeed. -/
structure UpdateEnv where
  cargo : Bool
  exePathOk : Bool
  exeBytes : List Nat
  readExeOk : Bool
  fetchStatus : Option Nat
  fetchText : Option String
  downloadBytes : Option (List Nat)
  removeOk : Bool
  createOk : Bool

/-- Result of the modelled `self_update`: how it terminated, the final
content of the executable path (`none` = no file there), and the effect
trace. -/
structure UpdateResult where
  outcome : UpdateOutcome
  file : Option (List Nat)
  effects : List UpdateEffect
deriving DecidableEq, Repr

/-- Mirrors `self_update`, parametrized by the SHA-256 function `hash` on
byte lists (the claims depend only on comparisons of hash values, never on
SHA-256 internals).  Control flow follows the source: skip under Cargo;
fail when the executable path is unknown; hash the current executable
(failure is tolerated and treated as "unknown"); fetch the remote checksum
(non-200 aborts with success); no-op when the known local hash equals the
trimmed, lowercased remote hash; otherwise download, hash, and abort (with
success, executable untouched) on mismatch; on match remove the old file
(failure tolerated), create and fill the new one, and exit.  `io::copy`
and `set_permissions` are modelled as succeeding once the create
succeeded. -/
def selfUpdate (hash : List Nat → String) (env : UpdateEnv) : UpdateResult :=
  if env.cargo then
    ⟨UpdateOutcome.ok, some env.exeBytes, []⟩
  else if !env.exePathOk then
    ⟨UpdateOutcome.err "Failed to determine executable name, cannot self-update",
      some env.exeBytes, []⟩
  else
    let currentHash : Option String :=
      if env.readExeOk then some (hash env.exeBytes) else none
    match env.fetchStatus with
    | none =>
        ⟨UpdateOutcome.err "checksum fetch failed", some env.exeBytes,
          [UpdateEffect.fetchChecksum]⟩
    | some status =>
      if status ≠ 200 then
        ⟨UpdateOutcome.ok, some env.exeBytes, [UpdateEffect.fetchChecksum]⟩
      else
        match env.fetchText with
        | none =>
            ⟨UpdateOutcome.err "checksum body read failed", some env.exeBytes,
              [UpdateEffect.fetchChecksum]⟩
        | some body =>
          let remoteHash := normalizeChecksum body
          if currentHash = some remoteHash then
            ⟨UpdateOutcome.ok, some env.exeBytes, [UpdateEffect.fetchChecksum]⟩
          else
            match env.downloadBytes with
            | none =>
                ⟨UpdateOutcome.err "download failed", some env.exeBytes,
                  [UpdateEffect.fetchChecksum, UpdateEffect.download]⟩
            | some bytes =>
              if hash bytes ≠ remoteHash then
                ⟨UpdateOutcome.ok, some env.exeBytes,
                  [UpdateEffect.fetchChecksum, UpdateEffect.download]⟩
              else
                let afterRemove : Option (List Nat) :=
                  if env.removeOk then none else some env.exeBytes
                if !env.createOk then
                  ⟨UpdateOutcome.err "failed to create replacement file",
                    afterRemove,
                    [UpdateEffect.fetchChecksum, UpdateEffect.download,
                     UpdateEffect.removeFile, UpdateEffect.createFile]⟩
                else
                  ⟨UpdateOutcome.exitSuccess, some bytes,
                    [UpdateEffect.fetchChecksum, UpdateEffect.download,
                     UpdateEffect.removeFile, UpdateEffect.createFile]⟩

/-! ## Helper lemmas -/

theorem applyOps_cons (b : RunCommandBuilder) (op : BuilderOp)
    (ops : List BuilderOp) :
    applyOps b (op :: ops) = applyOps (applyOp b op) ops := rfl

theorem applyOps_manager (b : RunCommandBuilder) (ops : List BuilderOp) :
    (applyOps b ops).manager = b.manager := by
  induction ops generalizing b with
  | nil => rfl
  | cons op ops ih =>
      rw [applyOps_cons, ih]
      cases op <;> rfl

theorem applyOps_image (b : RunCommandBuilder) (ops : List BuilderOp) :
    (applyOps b ops).image = b.image := by
  induction ops generalizing b with
  | nil => rfl
  | cons op ops ih =>
      rw [applyOps_cons, ih]
      cases op <;> rfl

theorem applyOps_rm (b : RunCommandBuilder) (ops : List BuilderOp) :
    (applyOps b ops).rm = (b.rm || opsRm ops) := by
  induction ops generalizing b with
  | nil => simp [applyOps, opsRm]
  | cons op ops ih =>
      cases op <;> simp [applyOps_cons, applyOp, opsRm, ih]

theorem applyOps_it (b : RunCommandBuilder) (ops : List BuilderOp) :
    (applyOps b ops).it = (b.it || opsIt ops) := by
  induction ops generalizing b with
  | nil => simp [applyOps, opsIt]
  | cons op ops ih =>
      cases op <;> simp [applyOps_cons, applyOp, opsIt, ih]

theorem applyOps_name (b : RunCommandBuilder) (ops : List BuilderOp) :
    (applyOps b ops).name =
      (match opsName ops with
       | some n => some n
       | none => b.name) := by
  induction ops generalizing b with
  | nil => rfl
  | cons op ops ih =>
      cases op <;>
        simp only [applyOps_cons, applyOp, opsName, ih] <;>
        cases h : opsName ops <;> simp [h]

theorem applyOps_volumes (b : RunCommandBuilder) (ops : List BuilderOp) :
    (applyOps b ops).volumes = b.volumes ++ opsVolumes ops := by
  induction ops generalizing b with
  | nil => simp [applyOps, opsVolumes]
  | cons op ops ih =>
      cases op <;> simp [applyOps_cons, applyOp, opsVolumes, ih]

theorem applyOps_args (b : RunCommandBuilder) (ops : List BuilderOp) :
    (applyOps b ops).args = b.args ++ opsArgs ops := by
  induction ops generalizing b with
  | nil => simp [applyOps, opsArgs]
  | cons op ops ih =>
      cases op <;> simp [applyOps_cons, applyOp, opsArgs, ih]

theorem noneSat_append (p : EngineCall → Bool) (l1 l2 : List EngineCall)
    (h1 : noneSat p l1 = true) (h2 : noneSat p l2 = true) :
    noneSat p (l1 ++ l2) = true := by
  simp only [noneSat, List.all_append]
  simp only [noneSat] at h1 h2
  rw [h1, h2]
  rfl

theorem precedesAll_of_noneSat_right (p q : EngineCall → Bool)
    (l : List EngineCall) (h : noneSat p l = true) :
    precedesAll p q l = true := by
  induction l with
  | nil => rfl
  | cons c rest ih =>
      simp only [noneSat, List.all_cons, Bool.and_eq_true] at h
      have hrest : noneSat p rest = true := h.2
      simp only [precedesAll, Bool.and_eq_true]
      exact ⟨by rw [hrest]; simp, ih hrest⟩

theorem precedesAll_append (p q : EngineCall → Bool) (l1 l2 : List EngineCall)
    (h1 : noneSat q l1 = true) (h2 : noneSat p l2 = true) :
    precedesAll p q (l1 ++ l2) = true := by
  induction l1 with
  | nil => exact precedesAll_of_noneSat_right p q l2 h2
  | cons c rest ih =>
      simp only [noneSat, List.all_cons, Bool.and_eq_true] at h1
      have hc : q c = false := by
        cases hqc : q c
        · rfl
        · rw [hqc] at h1; simp at h1
      simp only [List.cons_append, precedesAll, Bool.and_eq_true]
      exact ⟨by rw [hc]; simp, ih h1.2⟩

/-! ## Claim theorems -/

/-- C6: for every sequence of option-setting calls on the run-command
builder, `build()` is pure and deterministic — two invocations produce
identical results — and the argument list has the fixed order: base command
(`run`), the interactive flag before the remove-on-exit flag, the name
option, the named volumes in append order, the image, then the trailing
arguments. -/
theorem run_command_builder_build_deterministic_fixed_order
    (m : ContainerManager) (img : String) (ops : List BuilderOp) :
    RunCommandBuilder.build (applyOps (RunCommandBuilder.new m img) ops) =
      RunCommandBuilder.build (applyOps (RunCommandBuilder.new m img) ops) ∧
    RunCommandBuilder.build (applyOps (RunCommandBuilder.new m img) ops) =
      (m.bin,
        ["run"] ++
        (if opsIt ops then ["-it"] else []) ++
        (if opsRm ops then ["--rm"] else []) ++
        (match opsName ops with
         | some n => ["--name=" ++ n]
         | none => []) ++
        (opsVolumes ops).map (fun v => "--volume=" ++ v) ++
        [img] ++
        opsArgs ops) := by
  refine ⟨rfl, ?_⟩
  unfold RunCommandBuilder.build
  rw [applyOps_manager, applyOps_image, applyOps_rm, applyOps_it,
    applyOps_name, applyOps_volumes, applyOps_args]
  show (ContainerManager.bin m, _) = _
  cases h : opsName ops <;> simp [RunCommandBuilder.new, h]

theorem noneSat_evebox_run_startSuricataDetached (env : LifecycleEnv) :
    noneSat (isRunOf eveboxName) (startSuricataDetached env).2 = true := by
  unfold startSuricataDetached suricataDumpConfig
  cases env.interfaceSet <;> cases env.dumpConfig <;>
    cases env.runOk suricataName <;>
    simp [noneSat, isRunOf, suricataName, eveboxName]

theorem noneSat_suricata_run_startEvebox (env : LifecycleEnv) :
    noneSat (isRunOf suricataName) (startEvebox env).2 = true := by
  unfold startEvebox
  cases env.runOk eveboxName <;> decide

theorem noneSat_evebox_stop_suricataPart (env : LifecycleEnv) :
    noneSat (isStopOf eveboxName)
      (if env.containerExists suricataName then
        [EngineCall.existsCheck suricataName,
         EngineCall.stopCall suricataName none,
         EngineCall.quietRmCall suricataName]
      else [EngineCall.existsCheck suricataName]) = true := by
  cases env.containerExists suricataName <;> decide

theorem noneSat_suricata_stop_eveboxPart (env : LifecycleEnv) :
    noneSat (isStopOf suricataName)
      (if env.containerExists eveboxName then
        [EngineCall.existsCheck eveboxName,
         EngineCall.stopCall eveboxName (some "SIGINT"),
         EngineCall.quietRmCall eveboxName]
      else [EngineCall.existsCheck eveboxName]) = true := by
  cases env.containerExists eveboxName <;> decide

/-- A lifecycle environment in which both containers exist and every engine
call succeeds. -/
def bothExistEnv : LifecycleEnv :=
  ⟨fun _ => true, fun _ => true, fun _ => true, true, some [], true⟩

/-- A lifecycle environment in which neither container exists. -/
def noContainersEnv : LifecycleEnv :=
  ⟨fun _ => false, fun _ => true, fun _ => true, true, some [], true⟩

/-- C1 (counterexample): with both containers existing, the `stop`
operation issues the Suricata stop before the EveBox stop, so the stated
ordering — viewer (EveBox) stopped before the inspection engine
(Suricata) — is false: both stop calls occur, yet not every EveBox stop
precedes every Suricata stop. -/
theorem stop_order_viewer_first_counterexample :
    (EngineCall.stopCall suricataName none ∈ (stopServices bothExistEnv).2) ∧
    (EngineCall.stopCall eveboxName (some "SIGINT") ∈
      (stopServices bothExistEnv).2) ∧
    precedesAll (isStopOf eveboxName) (isStopOf suricataName)
      (stopServices bothExistEnv).2 = false := by
  refine ⟨?_, ?_, ?_⟩ <;> decide

/-- C1 (amended): whenever both managed services are operated on, the start
operation launches the inspection-engine (Suricata) container before the
viewer (EveBox) container, and the stop operation stops them in the same
order: the inspection-engine (Suricata) container is stopped before the
viewer (EveBox) container. -/
theorem start_stop_ordering (env : LifecycleEnv) :
    precedesAll (isRunOf suricataName) (isRunOf eveboxName)
      (startServices env).2 = true ∧
    precedesAll (isStopOf suricataName) (isStopOf eveboxName)
      (stopServices env).2 = true := by
  constructor
  · show precedesAll _ _ ((startSuricataDetached env).2 ++ (startEvebox env).2)
        = true
    exact precedesAll_append _ _ _ _
      (noneSat_evebox_run_startSuricataDetached env)
      (noneSat_suricata_run_startEvebox env)
  · unfold stopServices
    simp only
    exact precedesAll_append _ _ _ _
      (noneSat_evebox_stop_suricataPart env)
      (noneSat_suricata_stop_eveboxPart env)

/-- C7: the lifecycle stop operation issues an engine stop for a service
exactly when `container_exists` answered true for that service's name; when
neither container exists, stop returns true having issued only the two
existence checks and no stop call. -/
theorem stop_only_acts_on_existing_containers (env : LifecycleEnv) :
    ((EngineCall.stopCall suricataName none ∈ (stopServices env).2) ↔
      env.containerExists suricataName = true) ∧
    ((EngineCall.stopCall eveboxName (some "SIGINT") ∈ (stopServices env).2) ↔
      env.containerExists eveboxName = true) ∧
    (env.containerExists suricataName = false →
      env.containerExists eveboxName = false →
        (stopServices env).1 = true ∧
        (stopServices env).2 =
          [EngineCall.existsCheck suricataName,
           EngineCall.existsCheck eveboxName]) := by
  cases hs : env.containerExists suricataName <;>
    cases he : env.containerExists eveboxName <;>
      simp only [stopServices, hs, he] <;>
      simp [suricataName, eveboxName]

/-- C7 (witness): in the environment where neither container exists, stop
returns true and the trace is just the two existence checks. -/
theorem stop_only_acts_on_existing_containers_witness :
    (stopServices noContainersEnv).1 = true ∧
    (stopServices noContainersEnv).2 =
      [EngineCall.existsCheck suricataName,
       EngineCall.existsCheck eveboxName] :=
  (stop_only_acts_on_existing_containers noContainersEnv).2.2 rfl rfl

/-- A lifecycle environment for the detached start path in which the config
dump and the detached run succeed but the log-rotation `exec` fails; the
model records no `is_running` observation because the detached path never
makes one. -/
def detachedStartEnv : LifecycleEnv :=
  ⟨fun _ => true, fun _ => true, fun _ => true, false, some ["line"], true⟩

/-- C5 (counterexample): in the detached start path the log-rotation helper
is launched without any prior observation of the container reporting
`running` — the exec call occurs in the trace, yet it is not preceded by a
true `is_running` report, so the claimed readiness gating does not hold. -/
theorem detached_logrotate_not_gated_counterexample :
    (EngineCall.execCall suricataName ∈ (startSuricataDetached detachedStartEnv).2) ∧
    eachPrecededBy (isExecOf suricataName) (isRunningTrueOf suricataName)
      (startSuricataDetached detachedStartEnv).2 = false := by
  refine ⟨?_, ?_⟩ <;> decide

/-- C5 (amended): when start runs the inspection-engine service detached,
the background log-rotation helper is launched immediately after the
detached run command succeeds, with no readiness check or retry; when the
run command fails the helper is not launched; a helper launch failure is
logged and is non-fatal — `start_suricata_detached` still returns success
(the conclusion holds for every environment, in particular when the exec
fails). -/
theorem detached_logrotate_behavior (env : LifecycleEnv) :
    (∀ cfg, env.interfaceSet = true → env.dumpConfig = some cfg →
      env.runOk suricataName = true →
        (startSuricataDetached env).1 = Except.ok () ∧
        (startSuricataDetached env).2 =
          [EngineCall.quietRmCall suricataName,
           EngineCall.runCall suricataName,
           EngineCall.quietRmCall suricataName,
           EngineCall.runCall suricataName,
           EngineCall.execCall suricataName]) ∧
    (env.runOk suricataName = false →
      EngineCall.execCall suricataName ∉ (startSuricataDetached env).2) := by
  constructor
  · intro cfg hI hD hR
    unfold startSuricataDetached suricataDumpConfig
    rw [hI, hD, hR]
    exact ⟨rfl, rfl⟩
  · intro hR
    unfold startSuricataDetached suricataDumpConfig
    cases hI : env.interfaceSet <;> cases hD : env.dumpConfig <;>
      rw [hR] <;> simp [suricataName]

/-- C5 (amended, witness): in the concrete detached environment where the
log-rotation exec fails, start still succeeds and the trace ends with the
exec call. -/
theorem detached_logrotate_behavior_witness :
    (startSuricataDetached detachedStartEnv).1 = Except.ok () ∧
    (startSuricataDetached detachedStartEnv).2 =
      [EngineCall.quietRmCall suricataName,
       EngineCall.runCall suricataName,
       EngineCall.quietRmCall suricataName,
       EngineCall.runCall suricataName,
       EngineCall.execCall suricataName] :=
  (detached_logrotate_behavior detachedStartEnv).1 ["line"] rfl rfl rfl

/-- C8: `quiet_rm` never surfaces an error to its caller — for every
container name and every outcome of the underlying removal command it
returns success — and the removal command includes the `--force` flag for
Podman but not for Docker. -/
theorem quiet_rm_swallows_errors_and_force_flag (name : String)
    (underlying : Except String Unit) :
    (∀ m : ContainerManager, quietRm m name underlying = Except.ok ()) ∧
    quietRmArgs ContainerManager.podman name = ["rm", "--force", name] ∧
    quietRmArgs ContainerManager.docker name = ["rm", name] :=
  ⟨fun _ => rfl, rfl, rfl⟩

/-- C10: `is_running` is total — it returns the `State.Running` flag when
the inspect call succeeds and the first entry carries a container state
object, and returns false on every failure mode: launch failure, non-zero
exit (with or without stderr text), JSON parse failure, an empty inspect
array, and an entry without a state object (the name was an image). -/
theorem is_running_total_false_on_failure :
    (isRunning InspectOutcome.launchFail = false) ∧
    (∀ stderr, isRunning (InspectOutcome.exitFail stderr) = false) ∧
    (isRunning InspectOutcome.parseFail = false) ∧
    (isRunning (InspectOutcome.parsed []) = false) ∧
    (∀ id tags rest,
      isRunning (InspectOutcome.parsed (⟨id, none, tags⟩ :: rest)) = false) ∧
    (∀ id s tags rest,
      isRunning (InspectOutcome.parsed (⟨id, some s, tags⟩ :: rest)) =
        s.running) := by
  refine ⟨rfl, ?_, rfl, rfl, fun id tags rest => rfl, fun id s tags rest => rfl⟩
  intro stderr
  unfold isRunning state inspectFirst commandJson
  by_cases hs : stderr = "" <;> simp [hs]

/-- C3: probing with Podman-only accepts the Podman engine exactly when its
parsed version satisfies major ≥ 4 and, when major = 4, minor ≥ 6: below
that bound probing logs the minimum-version diagnostic and returns no
engine; at or above it, probing returns the Podman engine. -/
theorem podman_minimum_version_enforced (env : ProbeEnv) (s : String)
    (maj mnr pat : Nat)
    (hex : env.podmanExists = true)
    (hv : env.podmanVersion = some s)
    (hp : parseSemver s = some (maj, mnr, pat)) :
    ((maj < 4 ∨ (maj = 4 ∧ mnr < 6)) →
      findManager true env = (none, [minVersionDiagnostic])) ∧
    ((4 < maj ∨ (maj = 4 ∧ 6 ≤ mnr)) →
      findManager true env = (some ContainerManager.podman, [])) := by
  unfold findManager
  rw [hex, hv]
  dsimp only
  rw [hp]
  constructor
  · intro hlow
    have hb : (decide (maj < 4) || (maj == 4 && decide (mnr < 6))) = true := by
      simp only [Bool.or_eq_true, Bool.and_eq_true, decide_eq_true_eq,
        beq_iff_eq]
      omega
    simp [hb]
  · intro hhigh
    have hb : (decide (maj < 4) || (maj == 4 && decide (mnr < 6))) = false := by
      simp only [Bool.or_eq_false_iff, Bool.and_eq_false_iff,
        decide_eq_false_iff_not, beq_eq_false_iff_ne, ne_eq, not_lt]
      omega
    simp [hb]

/-- C3 (witness): with Podman version "4.5.9" probing Podman-only fails
with the minimum-version diagnostic, and with "4.6.0" it returns the
Podman engine. -/
theorem podman_minimum_version_enforced_witness :
    findManager true ⟨false, none, true, some "4.5.9"⟩ =
      (none, [minVersionDiagnostic]) ∧
    findManager true ⟨false, none, true, some "4.6.0"⟩ =
      (some ContainerManager.podman, []) :=
  ⟨(podman_minimum_version_enforced _ "4.5.9" 4 5 9 rfl rfl (by decide)).1
      (Or.inr ⟨rfl, by omega⟩),
    (podman_minimum_version_enforced _ "4.6.0" 4 6 0 rfl rfl (by decide)).2
      (Or.inr ⟨rfl, by omega⟩)⟩

/-- C2: whenever the downloaded candidate's checksum differs from the
remote-declared checksum (the fetched body, trimmed and lowercased), the
update aborts: the executable file's bytes are unchanged, the process does
not take the replace-and-exit path, and no remove or create of the
executable file happens. -/
theorem self_update_mismatch_leaves_exe_untouched
    (hash : List Nat → String) (env : UpdateEnv)
    (body : String) (bytes : List Nat)
    (hbody : env.fetchText = some body)
    (hdl : env.downloadBytes = some bytes)
    (hne : hash bytes ≠ normalizeChecksum body) :
    (selfUpdate hash env).file = some env.exeBytes ∧
    (selfUpdate hash env).outcome ≠ UpdateOutcome.exitSuccess ∧
    UpdateEffect.removeFile ∉ (selfUpdate hash env).effects ∧
    UpdateEffect.createFile ∉ (selfUpdate hash env).effects := by
  unfold selfUpdate
  cases hc : env.cargo
  · cases hpo : env.exePathOk
    · simp
    · cases hfs : env.fetchStatus with
      | none => simp
      | some status =>
          by_cases h200 : status = 200
          · subst h200
            rw [hbody]
            dsimp only
            by_cases hcur :
                (if env.readExeOk then some (hash env.exeBytes) else none) =
                  some (normalizeChecksum body)
            · rw [if_pos hcur]
              simp
            · rw [if_neg hcur, hdl]
              dsimp only
              rw [if_pos hne]
              simp
          · simp [h200]
  · simp

/-- C2 (witness): a concrete environment whose download hashes to "xx"
while the remote checksum is "aa": the executable is untouched and no
remove/create effect occurs. -/
theorem self_update_mismatch_leaves_exe_untouched_witness :
    (selfUpdate (fun _ => "xx")
        ⟨false, true, [1, 2], false, some 200, some "aa", some [3], true, true⟩).file =
      some [1, 2] ∧
    (selfUpdate (fun _ => "xx")
        ⟨false, true, [1, 2], false, some 200, some "aa", some [3], true, true⟩).outcome ≠
      UpdateOutcome.exitSuccess ∧
    UpdateEffect.removeFile ∉
      (selfUpdate (fun _ => "xx")
        ⟨false, true, [1, 2], false, some 200, some "aa", some [3], true, true⟩).effects ∧
    UpdateEffect.createFile ∉
      (selfUpdate (fun _ => "xx")
        ⟨false, true, [1, 2], false, some 200, some "aa", some [3], true, true⟩).effects :=
  self_update_mismatch_leaves_exe_untouched (fun _ => "xx") _ "aa" [3]
    rfl rfl (by decide)

/-- C4: when the current executable's checksum is computed successfully and
equals the trimmed, lowercased remote checksum, `self_update` returns
success having performed only the checksum fetch: no download, no file
removal, creation or write, and the executable is unchanged. -/
theorem self_update_noop_on_matching_checksum
    (hash : List Nat → String) (env : UpdateEnv) (body : String)
    (hcargo : env.cargo = false)
    (hpath : env.exePathOk = true)
    (hread : env.readExeOk = true)
    (hst : env.fetchStatus = some 200)
    (htxt : env.fetchText = some body)
    (hmatch : hash env.exeBytes = normalizeChecksum body) :
    selfUpdate hash env =
      ⟨UpdateOutcome.ok, some env.exeBytes, [UpdateEffect.fetchChecksum]⟩ := by
  unfold selfUpdate
  rw [hcargo, hpath, hread, hst, htxt]
  simp [hmatch]

/-- C4 (witness): a concrete environment where the local hash "aa" equals
the trimmed, lowercased remote body " AA ": the result is a successful
no-op with only the fetch effect. -/
theorem self_update_noop_on_matching_checksum_witness :
    selfUpdate (fun _ => "aa")
        ⟨false, true, [1, 2], true, some 200, some " AA ", some [3], true, true⟩ =
      ⟨UpdateOutcome.ok, some [1, 2], [UpdateEffect.fetchChecksum]⟩ :=
  self_update_noop_on_matching_checksum (fun _ => "aa") _ " AA "
    rfl rfl rfl rfl rfl (by decide)

/-- Invariant of the supervisor transition system: each service's stop call
appears in the trace exactly once after the shutdown sequence ran, and not
at all before. -/
def supInvariant (s : SupState) : Prop :=
  s.trace.countP (fun c => isStopOf suricataName c) =
    (if s.mainDone then 1 else 0) ∧
  s.trace.countP (fun c => isStopOf eveboxName c) =
    (if s.mainDone then 1 else 0)

theorem supStep_invariant {s t : SupState} (h : SupStep s t)
    (hi : supInvariant s) : supInvariant t := by
  cases h with
  | interrupt hp => exact hi
  | readerEof hp => exact hi
  | mainRecv hm hc =>
      have h1 : List.countP (fun c => isStopOf suricataName c) s.trace = 0 := by
        have h := hi.1
        rw [hm] at h
        simpa using h
      have h2 : List.countP (fun c => isStopOf eveboxName c) s.trace = 0 := by
        have h := hi.2
        rw [hm] at h
        simpa using h
      unfold supInvariant
      refine ⟨?_, ?_⟩ <;> simp only [List.countP_append, h1, h2] <;> decide

theorem supReaches_invariant {s t : SupState} (h : SupReaches s t)
    (hi : supInvariant s) : supInvariant t := by
  induction h with
  | refl s => exact hi
  | step hstep _ ih => exact ih (supStep_invariant hstep hi)

/-- C9: in the foreground supervisor, under any number of interrupt-handler
invocations and any interleaving with the reader tasks, every reachable
state has issued the stop command to each of the two services at most once
— exactly once when the shutdown sequence has run — and with at least one
interrupt a state where the shutdown sequence has run is reachable. -/
theorem foreground_shutdown_exactly_once (n r : Nat) :
    (∀ s, SupReaches (supInit n r) s →
      s.trace.countP (fun c => isStopOf suricataName c) ≤ 1 ∧
      s.trace.countP (fun c => isStopOf eveboxName c) ≤ 1 ∧
      (s.mainDone = true →
        s.trace.countP (fun c => isStopOf suricataName c) = 1 ∧
        s.trace.countP (fun c => isStopOf eveboxName c) = 1)) ∧
    (0 < n → ∃ s, SupReaches (supInit n r) s ∧ s.mainDone = true) := by
  constructor
  · intro s hreach
    have hinit : supInvariant (supInit n r) := by
      constructor <;> simp [supInit]
    have hs := supReaches_invariant hreach hinit
    refine ⟨?_, ?_, ?_⟩
    · rw [hs.1]; split <;> omega
    · rw [hs.2]; split <;> omega
    · intro hdone
      rw [hs.1, hs.2, hdone]
      simp
  · intro hn
    refine ⟨_, SupReaches.step (SupStep.interrupt _ hn)
      (SupReaches.step (SupStep.mainRecv _ rfl (by simp))
        (SupReaches.refl _)), rfl⟩

/-- The supervisor state reached by one interrupt followed by the main
flow's receive, starting from two potential interrupts and four readers. -/
def supFinal : SupState :=
  ⟨1, 4, 0, true,
    [EngineCall.stopCall suricataName none,
     EngineCall.stopCall eveboxName (some "SIGINT")]⟩

/-- C9 (witness): after one interrupt and the main receive, each service
received exactly one stop call. -/
theorem foreground_shutdown_exactly_once_witness :
    supFinal.trace.countP (fun c => isStopOf suricataName c) = 1 ∧
    supFinal.trace.countP (fun c => isStopOf eveboxName c) = 1 := by
  have hreach : SupReaches (supInit 2 4) supFinal :=
    SupReaches.step (SupStep.interrupt _ (by decide))
      (SupReaches.step (SupStep.mainRecv _ rfl (by decide))
        (SupReaches.refl _))
  exact ((foreground_shutdown_exactly_once 2 4).1 supFinal hreach).2.2 rfl

end SimpleIds
